import Mathlib

/-!
# Retention study-session engine: verification of the core

A shallow embedding of the study-session engine of the Retention flashcard
application: the pure `sessionQueueReducer` state machine
(`src/store/sessionQueue.ts`), the `StudySessionStore` orchestrator
(`src/store/studyStore.ts`), and its persistence `migrate` rule.

Modelling conventions:
* TypeScript optional / nullable fields become `Option`.
* JS `number` becomes `Rat` (this core never computes with the numeric
  payload fields, it only stores and compares them).
* Timestamps produced by `new Date().toISOString()` / `Date.now()` are
  passed to each operation as an explicit `now` parameter.
* The JS object spread `{...m, [k]: v}` on a string-keyed record becomes an
  insertion-ordered association list update.
-/

set_option maxHeartbeats 1000000

namespace Retention

/-- `CardSchedule` from `types/deck.ts`: opaque spaced-repetition payload. -/
structure CardSchedule where
  dueAt : String
  interval : Rat
  ease : Rat
  streak : Rat
  quality : Option Rat
deriving DecidableEq, Repr

/-- `GradingMode` from `types/deck.ts`. -/
inductive GradingMode
  | lenient
  | strict
  | keywords
  | hybrid
deriving DecidableEq, Repr

/-- `CardSummary` from `types/deck.ts`. -/
structure CardSummary where
  id : String
  prompt : String
  keypointCount : Rat
  answer : Option String
  keypoints : Option (List String)
  schedule : Option CardSchedule
  archived : Option Bool
  gradingMode : Option GradingMode
  alternativeAnswers : Option (List String)
deriving DecidableEq, Repr

/-- `Verdict` from `types/study.ts`. -/
inductive Verdict
  | incorrect
  | missing
  | almost
  | correct
deriving DecidableEq, Repr

/-- `AttemptRecord` from `types/study.ts`. -/
structure AttemptRecord where
  id : String
  cardId : String
  userAnswer : String
  verdict : Verdict
  score : Rat
  cosine : Rat
  coverage : Rat
  missingKeypoints : List String
  feedback : Option String
  prompt : Option String
  expectedAnswer : Option String
  keypoints : List String
  createdAt : String
  schedule : Option CardSchedule
deriving DecidableEq, Repr

/-- `SessionPhase` from `sessionQueue.ts`. -/
inductive SessionPhase
  | empty
  | prompt
  | review
  | complete
deriving DecidableEq, Repr

/-- `SessionActionKind` from `sessionQueue.ts`. -/
inductive SessionActionKind
  | bootstrap
  | setActive
  | check
  | backOfPile
  | next
  | markLearned
  | syncCard
  | reset
deriving DecidableEq, Repr

/-- The `action` tag a completed entry may carry (`"next" | "markLearned" |
"backOfPile"` in `SessionCompletedEntry`). -/
inductive CompletedAction
  | next
  | markLearned
  | backOfPile
deriving DecidableEq, Repr

/-- `SessionCompletedEntry` from `sessionQueue.ts`. -/
structure SessionCompletedEntry where
  card : CardSummary
  action : CompletedAction
  completedAt : String
  verdict : Option Verdict
deriving DecidableEq, Repr

/-- `SessionQueueState` from `sessionQueue.ts`. -/
structure SessionQueueState where
  deckId : Option String
  active : Option CardSummary
  queue : List CardSummary
  completed : List SessionCompletedEntry
  phase : SessionPhase
  lastAction : Option SessionActionKind
  total : Nat
deriving DecidableEq, Repr

/-- `SessionQueueAction` from `sessionQueue.ts`. -/
inductive SessionQueueAction
  | bootstrap (deckId : String) (cards : List CardSummary)
  | setActive (cardId : Option String)
  | check
  | backOfPile (verdict : Option Verdict)
  | next (verdict : Option Verdict)
  | markLearned (verdict : Option Verdict)
  | syncCard (card : CardSummary)
  | reset
deriving DecidableEq, Repr

/-- `initialSessionState` from `sessionQueue.ts`. -/
def initialSessionState : SessionQueueState :=
  { deckId := none
    active := none
    queue := []
    completed := []
    phase := .empty
    lastAction := none
    total := 0 }

/-- `cloneCard` from `sessionQueue.ts`: rebuilds the record, copying the
`keypoints` array when present (`card.keypoints ? [...card.keypoints] :
undefined`; note an empty JS array is truthy, so an empty list is copied,
not dropped). -/
def cloneCard (card : CardSummary) : CardSummary :=
  { card with
    keypoints :=
      match card.keypoints with
      | some ks => some (ks.map id)
      | none => none }

/-- `mergeCards` from `sessionQueue.ts`: `{...existing, ...incoming,
keypoints: incoming.keypoints ?? existing.keypoints}` — the incoming full
record overwrites every field, except that `keypoints` falls back to the
existing card's keypoints when the incoming ones are absent. -/
def mergeCards (existing incoming : CardSummary) : CardSummary :=
  { incoming with
    keypoints :=
      match incoming.keypoints with
      | some ks => some ks
      | none => existing.keypoints }

/-- `sortCardsForSession` from `sessionQueue.ts`: clone every card, then
filter out archived ones (`!card.archived`). -/
def sortCardsForSession (cards : List CardSummary) : List CardSummary :=
  (cards.map cloneCard).filter (fun card => card.archived ≠ some true)

/-- The `syncCard` case, merge into the active slot: `if (state.active?.id
=== target.id) { active = mergeCards(state.active, target); changed = true }`. -/
def syncActiveCard (target : CardSummary) (active : Option CardSummary) : Option CardSummary :=
  if active.map (fun a => a.id) = some target.id then
    active.map (fun a => mergeCards a target)
  else active

/-- The `syncCard` case, merge into the queue: `state.queue.map(card =>
card.id === target.id ? mergeCards(card, target) : card)`. -/
def syncCardInList (target : CardSummary) (l : List CardSummary) : List CardSummary :=
  l.map (fun c => if c.id = target.id then mergeCards c target else c)

/-- The `syncCard` case, merge into the completed log: each entry whose card
matches gets its card merged, the entry metadata kept. -/
def syncCompletedList (target : CardSummary) (l : List SessionCompletedEntry) :
    List SessionCompletedEntry :=
  l.map (fun e =>
    if e.card.id = target.id then { e with card := mergeCards e.card target } else e)

/-- The `changed` flag of the `syncCard` case: set exactly when the target id
occurs in the active slot, the queue, or a completed entry. -/
def syncMatches (target : CardSummary) (state : SessionQueueState) : Prop :=
  state.active.map (fun a => a.id) = some target.id ∨
  (∃ c ∈ state.queue, c.id = target.id) ∨
  (∃ e ∈ state.completed, e.card.id = target.id)

instance (target : CardSummary) (state : SessionQueueState) :
    Decidable (syncMatches target state) := by
  unfold syncMatches
  infer_instance

/-- The whole `syncCard` case of `sessionQueueReducer`: merge the (cloned)
incoming card into every place its id occurs; if nothing matched, return
the state unchanged. -/
def applySyncCard (card : CardSummary) (state : SessionQueueState) : SessionQueueState :=
  let target := cloneCard card
  if syncMatches target state then
    { state with
      active := syncActiveCard target state.active
      queue := syncCardInList target state.queue
      completed := syncCompletedList target state.completed
      lastAction := some .syncCard }
  else state

/-- The queue scan inside the `setActive` case of `sessionQueueReducer`:
walks the queue, collecting non-matching cards in order into `nextQueue`
and remembering a clone of the *last* card whose id matches (the loop
overwrites `selected` on every match). Returns `(nextQueue, selected)`. -/
def scanQueueForCard (cardId : String) : List CardSummary → List CardSummary × Option CardSummary
  | [] => ([], none)
  | card :: rest =>
    let r := scanQueueForCard cardId rest
    if card.id = cardId then
      (r.1, match r.2 with | some s => some s | none => some (cloneCard card))
    else
      (card :: r.1, r.2)

/-- `sessionQueueReducer` from `sessionQueue.ts`. The wall clock used for
`new Date().toISOString()` in the `next` / `markLearned` / `backOfPile`
cases is the explicit `now` parameter. -/
def sessionQueueReducer (now : String) (state : SessionQueueState)
    (action : SessionQueueAction) : SessionQueueState :=
  match action with
  | .bootstrap deckId cards =>
    let sortedCards := sortCardsForSession cards
    match sortedCards with
    | [] =>
      { deckId := some deckId
        active := none
        queue := []
        completed := []
        phase := .empty
        lastAction := some .bootstrap
        total := sortedCards.length }
    | first :: rest =>
      { deckId := some deckId
        active := some first
        queue := rest
        completed := []
        phase := .prompt
        lastAction := some .bootstrap
        total := sortedCards.length }
  | .setActive cardId =>
    match cardId with
    | none =>
      let queue :=
        match state.active with
        | some a => cloneCard a :: state.queue
        | none => state.queue
      { state with
        active := none
        queue := queue
        phase := if queue.length > 0 then .prompt else .empty
        lastAction := some .setActive }
    | some cid =>
      if state.active.map (fun a => a.id) = some cid then
        { state with
          phase := if state.phase = .empty then .prompt else state.phase
          lastAction := some .setActive }
      else
        let scan := scanQueueForCard cid state.queue
        match scan.2 with
        | none =>
          match state.completed.find? (fun entry => decide (entry.card.id = cid)) with
          | some entry =>
            -- Keep the card in completed array to preserve session statistics
            let queue :=
              match state.active with
              | some a => cloneCard a :: state.queue
              | none => state.queue
            { state with
              active := some (cloneCard entry.card)
              queue := queue
              phase := .prompt
              lastAction := some .setActive }
          | none => state
        | some selected =>
          let queue :=
            match state.active with
            | some a => cloneCard a :: scan.1
            | none => scan.1
          { state with
            active := some selected
            queue := queue
            phase := .prompt
            lastAction := some .setActive }
  | .check =>
    match state.active with
    | none => state
    | some _ =>
      { state with
        phase := .review
        lastAction := some .check }
  | .backOfPile verdict =>
    match state.active with
    | none => state
    | some active =>
      let queueWithActive := state.queue ++ [cloneCard active]
      match queueWithActive with
      | [] =>
        -- unreachable: `queueWithActive` always holds the cloned active card;
        -- mirrors `nextActive ?? null` / the phase ternary of the source
        { state with
          active := none
          queue := []
          completed := state.completed ++
            [{ card := cloneCard active
               action := .backOfPile
               completedAt := now
               verdict := verdict }]
          phase := .complete
          lastAction := some .backOfPile }
      | nextActive :: remaining =>
        { state with
          active := some nextActive
          queue := remaining
          completed := state.completed ++
            [{ card := cloneCard active
               action := .backOfPile
               completedAt := now
               verdict := verdict }]
          phase := .prompt
          lastAction := some .backOfPile }
  | .next verdict =>
    match state.active with
    | none => state
    | some active =>
      let completedEntry : SessionCompletedEntry :=
        { card := cloneCard active
          action := .next
          completedAt := now
          verdict := verdict }
      match state.queue with
      | [] =>
        { state with
          active := none
          queue := []
          completed := state.completed ++ [completedEntry]
          phase := .complete
          lastAction := some .next }
      | nextActive :: restQueue =>
        { state with
          active := some nextActive
          queue := restQueue
          completed := state.completed ++ [completedEntry]
          phase := .prompt
          lastAction := some .next }
  | .markLearned verdict =>
    match state.active with
    | none => state
    | some active =>
      let completedEntry : SessionCompletedEntry :=
        { card := cloneCard active
          action := .markLearned
          completedAt := now
          verdict := verdict }
      match state.queue with
      | [] =>
        { state with
          active := none
          queue := []
          completed := state.completed ++ [completedEntry]
          phase := .complete
          lastAction := some .markLearned }
      | nextActive :: restQueue =>
        { state with
          active := some nextActive
          queue := restQueue
          completed := state.completed ++ [completedEntry]
          phase := .prompt
          lastAction := some .markLearned }
  | .syncCard card => applySyncCard card state
  | .reset => initialSessionState

/-! ## StudySessionStore (`src/store/studyStore.ts`)

The zustand store is embedded as a state record plus one pure state
transformer per operation. Each asynchronous collaborator call
(`recordAttempt`, `fetchAttemptHistory`) is modelled by passing its outcome
as a parameter; a whole request/response round trip is one atomic step,
matching §5 of the design (state transitions are synchronous, suspension
happens only at the network boundary, and a completing response is applied
against the then-current state). -/

/-- `StudyStatus` from `studyStore.ts`. -/
inductive StudyStatus
  | idle
  | scoring
  | error
deriving DecidableEq, Repr

/-- The cache `Record<string, AttemptRecord[]>`: an insertion-ordered
association list with unique keys, as a JS object is. -/
abbrev AttemptsMap := List (String × List AttemptRecord)

/-- Reading `m[k]` from the JS record: `none` plays `undefined`. -/
def lookupAttempts (m : AttemptsMap) (k : String) : Option (List AttemptRecord) :=
  match m with
  | [] => none
  | p :: rest => if p.1 = k then some p.2 else lookupAttempts rest k

/-- The JS update `{...m, [k]: v}`: overwrite the key in place when present,
otherwise append it at the end (JS objects keep string-key insertion
order). -/
def setAttempts (m : AttemptsMap) (k : String) (v : List AttemptRecord) : AttemptsMap :=
  match m with
  | [] => [(k, v)]
  | p :: rest => if p.1 = k then (k, v) :: rest else p :: setAttempts rest k v

/-- The data fields of `StudyState` from `studyStore.ts` (the function
fields are the operations modelled below). -/
structure StudyState where
  activeCardId : Option String
  status : StudyStatus
  error : Option String
  lastAttempt : Option AttemptRecord
  attemptsByCard : AttemptsMap
  session : SessionQueueState
  sessionStartedAt : Option Int
deriving DecidableEq, Repr

/-- `MAX_CACHED_ATTEMPTS` from `studyStore.ts`. -/
def MAX_CACHED_ATTEMPTS : Nat := 50

/-- `MAX_SESSION_AGE_MS` from `studyStore.ts`: 24 hours. -/
def MAX_SESSION_AGE_MS : Int := 24 * 60 * 60 * 1000

/-- The store's initial data (`create` defaults in `studyStore.ts`). -/
def initialStudyState : StudyState :=
  { activeCardId := none
    status := .idle
    error := none
    lastAttempt := none
    attemptsByCard := []
    session := initialSessionState
    sessionStartedAt := none }

/-- `deriveSessionState` from `studyStore.ts`: recompute `activeCardId` from
the session, keep `previousAttempt` only when it belongs to the new active
card. Returns `(session, activeCardId, lastAttempt)`. -/
def deriveSessionState (previousAttempt : Option AttemptRecord)
    (session : SessionQueueState) :
    SessionQueueState × Option String × Option AttemptRecord :=
  let activeCardId := session.active.map (fun c => c.id)
  let lastAttempt :=
    match previousAttempt with
    | some a => if some a.cardId = activeCardId then some a else none
    | none => none
  (session, activeCardId, lastAttempt)

/-- `startSession` from `studyStore.ts` (synchronous part): bootstrap a fresh
session, stamp `sessionStartedAt`, clear the error. The best-effort history
prefetch it fires is a separate `fetchAttempts` completion step. -/
def startSession (now : Int) (deckId : String) (cards : List CardSummary)
    (s : StudyState) : StudyState :=
  let session := sessionQueueReducer "" initialSessionState (.bootstrap deckId cards)
  let d := deriveSessionState none session
  { s with
    session := d.1
    activeCardId := d.2.1
    lastAttempt := d.2.2
    sessionStartedAt := some now
    error := none }

/-- `dispatchSession` from `studyStore.ts` (synchronous part): apply the
reducer and re-derive `activeCardId` / `lastAttempt`. The conditional
background prefetch is a separate `fetchAttempts` completion step. -/
def dispatchSession (now : String) (action : SessionQueueAction)
    (s : StudyState) : StudyState :=
  let d := deriveSessionState s.lastAttempt (sessionQueueReducer now s.session action)
  { s with
    session := d.1
    activeCardId := d.2.1
    lastAttempt := d.2.2 }

/-- `selectCard` from `studyStore.ts` (synchronous part): `setActive` with
`lastAttempt` dropped when deselecting, plus `error` cleared; the prefetch
is a separate step. -/
def selectCard (cardId : Option String) (s : StudyState) : StudyState :=
  match cardId with
  | none =>
    let d := deriveSessionState none
      (sessionQueueReducer "" s.session (.setActive none))
    { s with
      session := d.1
      activeCardId := d.2.1
      lastAttempt := d.2.2
      error := none }
  | some cid =>
    let d := deriveSessionState s.lastAttempt
      (sessionQueueReducer "" s.session (.setActive (some cid)))
    { s with
      session := d.1
      activeCardId := d.2.1
      lastAttempt := d.2.2
      error := none }

/-- The `set({status: "scoring", error: undefined})` that opens
`submitAnswer`, before the scoring collaborator is awaited. -/
def submitAnswerStart (s : StudyState) : StudyState :=
  { s with status := .scoring, error := none }

/-- The success continuation of `submitAnswer` from `studyStore.ts`: prepend
the returned attempt to the payload card's cache (capped at
`MAX_CACHED_ATTEMPTS`), dispatch `check`, set `lastAttempt`, go idle.
`payloadCardId` is `payload.cardId`; `attempt` is what `recordAttempt`
resolved with. -/
def submitAnswerSuccess (payloadCardId : String) (attempt : AttemptRecord)
    (s : StudyState) : StudyState :=
  let existing := (lookupAttempts s.attemptsByCard payloadCardId).getD []
  let nextAttempts := (attempt :: existing).take MAX_CACHED_ATTEMPTS
  -- the `check` case of the reducer never reads the clock
  let session := sessionQueueReducer "" s.session .check
  { s with
    status := .idle
    lastAttempt := some attempt
    attemptsByCard := setAttempts s.attemptsByCard payloadCardId nextAttempts
    session := session
    activeCardId := session.active.map (fun c => c.id) }

/-- JS `toLowerCase()`, modelled on the underlying character list (the
classification patterns it is compared against are plain ASCII). -/
def lowerChars (s : String) : List Char := s.data.map Char.toLower

/-- Structural prefix test on character lists. -/
def isPrefixOfChars : List Char → List Char → Bool
  | [], _ => true
  | _ :: _, [] => false
  | c :: cs, d :: ds => c = d && isPrefixOfChars cs ds

/-- JS `String.prototype.includes`, on character lists: does `pat` occur
contiguously inside `hay`? -/
def containsChars (pat : List Char) : List Char → Bool
  | [] => isPrefixOfChars pat []
  | c :: rest => isPrefixOfChars pat (c :: rest) || containsChars pat rest

/-- Connection-error classification in the catch branch of `submitAnswer`:
case-insensitive substring match of the raw message against
timeout / connection / network / fetch / unreachable. -/
def isConnectionError (rawMessage : String) : Bool :=
  containsChars "timeout".toList (lowerChars rawMessage) ||
  containsChars "connection".toList (lowerChars rawMessage) ||
  containsChars "network".toList (lowerChars rawMessage) ||
  containsChars "fetch".toList (lowerChars rawMessage) ||
  containsChars "unreachable".toList (lowerChars rawMessage)

/-- The friendly message used for connection-class scoring failures. -/
def connectionErrorMessage : String :=
  "Cannot reach the sidecar service. The request timed out or the sidecar may be offline. Please check the Sidecar Diagnostics section below."

/-- The failure continuation of `submitAnswer` from `studyStore.ts`: pick the
user message by classification, set error status, return `none` (the
function's `null`). The first component is the new store state, the second
the value `submitAnswer` resolves with. -/
def submitAnswerFailure (rawMessage : String) (s : StudyState) :
    StudyState × Option AttemptRecord :=
  let userMessage := if isConnectionError rawMessage then connectionErrorMessage
    else rawMessage
  ({ s with status := .error, error := some userMessage }, none)

/-- Outcome of the awaited `fetchAttemptHistory` call. -/
inductive FetchOutcome
  | success (attempts : List AttemptRecord)
  | failure (message : String)
deriving DecidableEq, Repr

/-- Not-found classification in the catch branch of `fetchAttempts`:
case-insensitive substring match against "not found" / "404" /
"does not exist". -/
def isNotFoundError (message : String) : Bool :=
  containsChars "not found".toList (lowerChars message) ||
  containsChars "404".toList (lowerChars message) ||
  containsChars "does not exist".toList (lowerChars message)

/-- The cache-hit guard of `fetchAttempts`: `existing && existing.length > 0
&& !force` (an empty cached array does not count as a hit). -/
def fetchCacheHit (s : StudyState) (cardId : String) (force : Bool) : Bool :=
  match lookupAttempts s.attemptsByCard cardId with
  | some existing => decide (existing.length > 0) && !force
  | none => false

/-- The body of `fetchAttempts` past the cache-hit guard: the actual
`fetchAttemptHistory` collaborator call with its try/catch. The `limit` is
forwarded to the collaborator (already folded into `outcome` here) and does
not bound what gets cached. -/
def fetchAttemptsCall (cardId : String) ( _limit : Nat) (outcome : FetchOutcome)
    (s : StudyState) : StudyState × List AttemptRecord × Bool :=
  match outcome with
  | .success attempts =>
    ({ s with
        attemptsByCard := setAttempts s.attemptsByCard cardId attempts
        error := none },
      attempts, true)
  | .failure message =>
    if isNotFoundError message then
      -- Card was likely deleted - cache empty array and don't show error
      ({ s with attemptsByCard := setAttempts s.attemptsByCard cardId [] },
        [], true)
    else
      -- Real error - show to user
      ({ s with error := some message }, [], true)

/-- `fetchAttempts` from `studyStore.ts`, one atomic round trip. Returns the
new store state, the list the promise resolves with, and whether the
history collaborator was actually called (`false` on a cache hit, in which
case `outcome` is irrelevant). -/
def fetchAttempts (cardId : String) (limit : Nat) (force : Bool)
    (outcome : FetchOutcome) (s : StudyState) :
    StudyState × List AttemptRecord × Bool :=
  match lookupAttempts s.attemptsByCard cardId with
  | some existing =>
    if existing.length > 0 && !force then (s, existing, false)
    else fetchAttemptsCall cardId limit outcome s
  | none => fetchAttemptsCall cardId limit outcome s

/-- `resetSession` from `studyStore.ts`. Note it does not clear
`attemptsByCard`, `status` or `error`. -/
def resetSession (s : StudyState) : StudyState :=
  { s with
    session := initialSessionState
    activeCardId := none
    lastAttempt := none
    sessionStartedAt := none }

/-- `clearError` from `studyStore.ts`. -/
def clearError (s : StudyState) : StudyState :=
  { s with error := none }

/-- One atomic step of the store, with every collaborator outcome and clock
value chosen arbitrarily by the environment. -/
inductive StoreOp
  | startSession (now : Int) (deckId : String) (cards : List CardSummary)
  | dispatchSession (now : String) (action : SessionQueueAction)
  | selectCard (cardId : Option String)
  | submitStart
  | submitResolve (payloadCardId : String) (attempt : AttemptRecord)
  | submitReject (rawMessage : String)
  | fetchResolve (cardId : String) (limit : Nat) (force : Bool) (outcome : FetchOutcome)
  | resetSession
  | clearError

/-- Apply one store step. -/
def applyOp (op : StoreOp) (s : StudyState) : StudyState :=
  match op with
  | .startSession now deckId cards => startSession now deckId cards s
  | .dispatchSession now action => dispatchSession now action s
  | .selectCard cardId => selectCard cardId s
  | .submitStart => submitAnswerStart s
  | .submitResolve payloadCardId attempt => submitAnswerSuccess payloadCardId attempt s
  | .submitReject rawMessage => (submitAnswerFailure rawMessage s).1
  | .fetchResolve cardId limit force outcome =>
    (fetchAttempts cardId limit force outcome s).1
  | .resetSession => resetSession s
  | .clearError => clearError s

/-- Run a trace of store steps from a state. -/
def runOps (ops : List StoreOp) (s : StudyState) : StudyState :=
  ops.foldl (fun s op => applyOp op s) s

/-- A store state reachable from the initial store by some trace. -/
def StoreReachable (s : StudyState) : Prop :=
  ∃ ops : List StoreOp, s = runOps ops initialStudyState

/-! ## Persistence (`persist` options of `studyStore.ts`) -/

/-- The `partialize` projection persisted to durable storage. -/
structure PersistedStudyState where
  session : SessionQueueState
  activeCardId : Option String
  lastAttempt : Option AttemptRecord
  attemptsByCard : AttemptsMap
  sessionStartedAt : Option Int
deriving DecidableEq, Repr

/-- The empty/reset persisted shape `migrate` falls back to. -/
def resetPersistedState : PersistedStudyState :=
  { session := initialSessionState
    activeCardId := none
    lastAttempt := none
    attemptsByCard := []
    sessionStartedAt := none }

/-- The body of `migrate` from `studyStore.ts` on an object-shaped persisted
state: `sessionAge` is `now - sessionStartedAt` when `sessionStartedAt` is
truthy (a JS number is falsy exactly when it is `0`), else `+∞`; a state
whose age exceeds `MAX_SESSION_AGE_MS` is replaced by the reset shape. -/
def migrateStudyState (now : Int) (p : PersistedStudyState) : PersistedStudyState :=
  let stale : Bool :=
    match p.sessionStartedAt with
    | some t => if t = 0 then true else decide (now - t > MAX_SESSION_AGE_MS)
    | none => true
  if stale then resetPersistedState else p

/-- `migrate` from `studyStore.ts` including the non-object guard: a falsy
or non-object persisted value (`none` here) is returned unchanged. -/
def migrate (now : Int) (persisted : Option PersistedStudyState) :
    Option PersistedStudyState :=
  match persisted with
  | none => none
  | some p => some (migrateStudyState now p)

/-! ## Basic lemmas about the card helpers -/

/-- Cloning a card is the identity on the mathematical record (the JS clone
only changes object identity, which the embedding does not track). -/
theorem cloneCard_eq (c : CardSummary) : cloneCard c = c := by
  cases c with
  | mk id prompt keypointCount answer keypoints schedule archived gradingMode alternativeAnswers =>
    cases keypoints <;> simp [cloneCard]

/-- Merging never changes the card id (the incoming record's id wins, and a
merge is only performed on id match anyway). -/
theorem mergeCards_id (e i : CardSummary) : (mergeCards e i).id = i.id := rfl

/-- Merging with the same incoming card twice is the same as merging once. -/
theorem mergeCards_idem (e i : CardSummary) :
    mergeCards (mergeCards e i) i = mergeCards e i := by
  cases i with
  | mk id prompt keypointCount answer keypoints schedule archived gradingMode alternativeAnswers =>
    cases keypoints <;> simp [mergeCards]

/-- A session reachable from the initial state by dispatched events, the
clock free at every step. -/
inductive SessionReachable : SessionQueueState → Prop
  | init : SessionReachable initialSessionState
  | step (now : String) (action : SessionQueueAction) {s : SessionQueueState} :
      SessionReachable s → SessionReachable (sessionQueueReducer now s action)

/-! ## Concrete cards for scenario claims -/

/-- A concrete unarchived card. -/
def cardA : CardSummary :=
  { id := "A", prompt := "prompt A", keypointCount := 0, answer := none,
    keypoints := none, schedule := none, archived := none,
    gradingMode := none, alternativeAnswers := none }

/-- A concrete unarchived card. -/
def cardB : CardSummary :=
  { id := "B", prompt := "prompt B", keypointCount := 0, answer := none,
    keypoints := none, schedule := none, archived := none,
    gradingMode := none, alternativeAnswers := none }

/-- A concrete unarchived card. -/
def cardC : CardSummary :=
  { id := "C", prompt := "prompt C", keypointCount := 0, answer := none,
    keypoints := none, schedule := none, archived := none,
    gradingMode := none, alternativeAnswers := none }

/-- The clock value used in the C1 scenario. -/
def c1Now : String := "2024-01-01T00:00:00.000Z"

/-- C1 scenario, step 1: bootstrap with the three cards [A,B,C]. -/
def c1State1 : SessionQueueState :=
  sessionQueueReducer c1Now initialSessionState
    (.bootstrap "deck" [cardA, cardB, cardC])

/-- C1 scenario, step 2: dispatch `next`. -/
def c1State2 : SessionQueueState := sessionQueueReducer c1Now c1State1 (.next none)

/-- C1 scenario, step 3: dispatch `backOfPile`. -/
def c1State3 : SessionQueueState :=
  sessionQueueReducer c1Now c1State2 (.backOfPile none)

/-- C1 scenario, step 4: dispatch `next`. -/
def c1State4 : SessionQueueState := sessionQueueReducer c1Now c1State3 (.next none)

/-- C1 scenario, step 5: dispatch `next` again. -/
def c1State5 : SessionQueueState := sessionQueueReducer c1Now c1State4 (.next none)

/-- C1: bootstrapping with the three non-archived cards [A,B,C] yields
active=A, queue=[B,C], total=3; `next` then yields completed=[{A,next}],
active=B, queue=[C]; `backOfPile` then yields
completed=[{A,next},{B,backOfPile}], active=C, queue=[B]; two further
`next` events end with active=null, queue=[], phase=complete and a
completed log of length 4. -/
theorem c1_session_scenario :
    c1State1.active = some cardA ∧ c1State1.queue = [cardB, cardC] ∧
    c1State1.total = 3 ∧
    c1State2.completed = [⟨cardA, .next, c1Now, none⟩] ∧
    c1State2.active = some cardB ∧ c1State2.queue = [cardC] ∧
    c1State3.completed =
      [⟨cardA, .next, c1Now, none⟩, ⟨cardB, .backOfPile, c1Now, none⟩] ∧
    c1State3.active = some cardC ∧ c1State3.queue = [cardB] ∧
    c1State5.active = none ∧ c1State5.queue = [] ∧
    c1State5.phase = .complete ∧ c1State5.completed.length = 4 := by
  decide

/-! ## The phase/emptiness invariant (C2) -/

/-- The corrected phase invariant: `empty` forces an empty snapshot, and an
empty snapshot forces phase `empty` or `complete`. -/
def PhaseEmptyInv (s : SessionQueueState) : Prop :=
  (s.phase = .empty → s.active = none ∧ s.queue = []) ∧
  (s.active = none → s.queue = [] → s.phase = .empty ∨ s.phase = .complete)

theorem phaseEmptyInv_initial : PhaseEmptyInv initialSessionState :=
  ⟨fun _ => ⟨rfl, rfl⟩, fun _ _ => Or.inl rfl⟩

/-- Merging into the active slot cannot create or delete the active card. -/
theorem syncActiveCard_eq_none (t : CardSummary) (x : Option CardSummary) :
    syncActiveCard t x = none ↔ x = none := by
  unfold syncActiveCard
  split
  · exact Option.map_eq_none'
  · exact Iff.rfl

/-- Merging into the queue preserves emptiness. -/
theorem syncCardInList_eq_nil (t : CardSummary) (l : List CardSummary) :
    syncCardInList t l = [] ↔ l = [] := by
  unfold syncCardInList
  exact List.map_eq_nil_iff

/-- `syncCard` never changes the phase. -/
theorem syncCard_phase (now : String) (s : SessionQueueState) (card : CardSummary) :
    (sessionQueueReducer now s (.syncCard card)).phase = s.phase := by
  simp only [sessionQueueReducer, applySyncCard]
  split <;> rfl

/-- `syncCard` preserves presence of an active card. -/
theorem syncCard_active_none (now : String) (s : SessionQueueState) (card : CardSummary) :
    (sessionQueueReducer now s (.syncCard card)).active = none ↔ s.active = none := by
  simp only [sessionQueueReducer, applySyncCard]
  split
  · dsimp only
    exact syncActiveCard_eq_none _ _
  · exact Iff.rfl

/-- `syncCard` preserves emptiness of the queue. -/
theorem syncCard_queue_nil (now : String) (s : SessionQueueState) (card : CardSummary) :
    (sessionQueueReducer now s (.syncCard card)).queue = [] ↔ s.queue = [] := by
  simp only [sessionQueueReducer, applySyncCard]
  split
  · dsimp only
    exact syncCardInList_eq_nil _ _
  · exact Iff.rfl

/-- Every reducer step preserves the phase/emptiness invariant. -/
theorem phaseEmptyInv_step (now : String) (s : SessionQueueState)
    (a : SessionQueueAction) (h : PhaseEmptyInv s) :
    PhaseEmptyInv (sessionQueueReducer now s a) := by
  obtain ⟨h1, h2⟩ := h
  cases a with
  | syncCard card =>
    have hph := syncCard_phase now s card
    have hac := syncCard_active_none now s card
    have hqe := syncCard_queue_nil now s card
    refine ⟨fun hp => ?_, fun hA hQ => ?_⟩
    · rw [hph] at hp
      obtain ⟨hA, hQ⟩ := h1 hp
      exact ⟨hac.mpr hA, hqe.mpr hQ⟩
    · rw [hph]
      exact h2 (hac.mp hA) (hqe.mp hQ)
  | bootstrap bDeckId cards =>
    obtain ⟨deckId, active, queue, completed, phase, lastAction, total⟩ := s
    simp only [sessionQueueReducer]
    split
    · exact ⟨fun _ => ⟨rfl, rfl⟩, fun _ _ => Or.inl rfl⟩
    · exact ⟨fun hp => (nomatch hp), fun hA _ => (nomatch hA)⟩
  | setActive cardId =>
    obtain ⟨deckId, active, queue, completed, phase, lastAction, total⟩ := s
    cases cardId with
    | none =>
      cases active with
      | none =>
        simp only [sessionQueueReducer]
        by_cases hq : queue = []
        · subst hq
          exact ⟨fun _ => ⟨rfl, rfl⟩, fun _ _ => Or.inl rfl⟩
        · have hlen : queue.length > 0 := List.length_pos.mpr hq
          rw [if_pos hlen]
          exact ⟨fun hp => (nomatch hp), fun _ hq' => absurd hq' hq⟩
      | some a =>
        simp only [sessionQueueReducer]
        have hlen : (cloneCard a :: queue).length > 0 := Nat.succ_pos _
        rw [if_pos hlen]
        exact ⟨fun hp => (nomatch hp), fun _ hq' => (nomatch hq')⟩
    | some cid =>
      simp only [sessionQueueReducer]
      split
      · -- id already active: only the phase is normalized
        rename_i hid
        refine ⟨fun hp => ?_, fun hA _ => ?_⟩
        · dsimp only at hp
          split at hp
          · exact (nomatch hp)
          · rename_i hne
            exact absurd hp hne
        · dsimp only at hA
          rw [hA] at hid
          exact (nomatch hid)
      · split
        · -- not found in the queue: look in completed
          split
          · exact ⟨fun hp => (nomatch hp), fun hA _ => (nomatch hA)⟩
          · exact ⟨h1, h2⟩
        · -- found in the queue
          exact ⟨fun hp => (nomatch hp), fun hA _ => (nomatch hA)⟩
  | check =>
    obtain ⟨deckId, active, queue, completed, phase, lastAction, total⟩ := s
    cases active with
    | none => exact ⟨h1, h2⟩
    | some a => exact ⟨fun hp => (nomatch hp), fun hA _ => (nomatch hA)⟩
  | backOfPile verdict =>
    obtain ⟨deckId, active, queue, completed, phase, lastAction, total⟩ := s
    cases active with
    | none => exact ⟨h1, h2⟩
    | some a =>
      simp only [sessionQueueReducer]
      split
      · exact ⟨fun hp => (nomatch hp), fun _ _ => Or.inr rfl⟩
      · exact ⟨fun hp => (nomatch hp), fun hA _ => (nomatch hA)⟩
  | next verdict =>
    obtain ⟨deckId, active, queue, completed, phase, lastAction, total⟩ := s
    cases active with
    | none => exact ⟨h1, h2⟩
    | some a =>
      cases queue with
      | nil => exact ⟨fun hp => (nomatch hp), fun _ _ => Or.inr rfl⟩
      | cons nextActive restQueue =>
        exact ⟨fun hp => (nomatch hp), fun hA _ => (nomatch hA)⟩
  | markLearned verdict =>
    obtain ⟨deckId, active, queue, completed, phase, lastAction, total⟩ := s
    cases active with
    | none => exact ⟨h1, h2⟩
    | some a =>
      cases queue with
      | nil => exact ⟨fun hp => (nomatch hp), fun _ _ => Or.inr rfl⟩
      | cons nextActive restQueue =>
        exact ⟨fun hp => (nomatch hp), fun hA _ => (nomatch hA)⟩
  | reset => exact ⟨fun _ => ⟨rfl, rfl⟩, fun _ _ => Or.inl rfl⟩

/-- The invariant holds in every reachable session state. -/
theorem phaseEmptyInv_reachable (s : SessionQueueState)
    (h : SessionReachable s) : PhaseEmptyInv s := by
  induction h with
  | init => exact phaseEmptyInv_initial
  | step now action hs ih => exact phaseEmptyInv_step now _ action ih

/-- A reachable state whose phase is `complete` with no active card and an
empty queue: bootstrap one card, then dispatch `next`. -/
def completePhaseState : SessionQueueState :=
  sessionQueueReducer "t"
    (sessionQueueReducer "t" initialSessionState (.bootstrap "deck" [cardA]))
    (.next none)

/-- C2, counterexample: the biconditional "phase = empty iff active absent
and queue empty" fails on a reachable state — after bootstrapping one card
and completing it, active is absent and the queue is empty but the phase is
`complete`, not `empty`. -/
theorem c2_counterexample :
    SessionReachable completePhaseState ∧
    ¬ (completePhaseState.phase = .empty ↔
        (completePhaseState.active = none ∧ completePhaseState.queue = [])) :=
  ⟨SessionReachable.step "t" (.next none)
      (SessionReachable.step "t" (.bootstrap "deck" [cardA]) SessionReachable.init),
    by decide⟩

/-- C2, amended: in every reachable session state, phase `empty` implies the
active card is absent and the queue is empty; conversely an absent active
card with an empty queue forces phase `empty` **or** phase `complete` (the
two are distinguished only by history, exactly as the spec's `complete`
clause says). -/
theorem c2_phase_empty_invariant (s : SessionQueueState)
    (h : SessionReachable s) :
    (s.phase = .empty → s.active = none ∧ s.queue = []) ∧
    (s.active = none → s.queue = [] →
      s.phase = .empty ∨ s.phase = .complete) :=
  phaseEmptyInv_reachable s h

/-- C2 witness: the amended invariant evaluated on the concrete reachable
`complete` state. -/
theorem c2_phase_empty_invariant_witness :
    (completePhaseState.phase = .empty →
      completePhaseState.active = none ∧ completePhaseState.queue = []) ∧
    (completePhaseState.active = none → completePhaseState.queue = [] →
      completePhaseState.phase = .empty ∨ completePhaseState.phase = .complete) :=
  c2_phase_empty_invariant completePhaseState
    (SessionReachable.step "t" (.next none)
      (SessionReachable.step "t" (.bootstrap "deck" [cardA]) SessionReachable.init))

/-! ## setActive round trip (C9) -/

/-- Scanning a queue containing no card with the searched id removes nothing
and selects nothing. -/
theorem scanQueueForCard_not_mem (cid : String) (l : List CardSummary)
    (h : ∀ c ∈ l, c.id ≠ cid) : scanQueueForCard cid l = (l, none) := by
  induction l with
  | nil => rfl
  | cons c rest ih =>
    have hc : c.id ≠ cid := h c (List.mem_cons_self c rest)
    have hrest := ih (fun x hx => h x (List.mem_cons_of_mem c hx))
    simp only [scanQueueForCard, hrest, if_neg hc]

/-- C9: from any state with an active card — the card's id occurring nowhere
in the queue, as the data-model invariant guarantees — dispatching
`setActive(null)` and then `setActive` of the original active card's id
restores the original active card and the original queue in its original
order. -/
theorem c9_setActive_roundtrip (now : String) (s : SessionQueueState)
    (a : CardSummary) (hactive : s.active = some a)
    (hnodup : ∀ c ∈ s.queue, c.id ≠ a.id) :
    (sessionQueueReducer now (sessionQueueReducer now s (.setActive none))
        (.setActive (some a.id))).active = some a ∧
    (sessionQueueReducer now (sessionQueueReducer now s (.setActive none))
        (.setActive (some a.id))).queue = s.queue := by
  obtain ⟨deckId, active, queue, completed, phase, lastAction, total⟩ := s
  dsimp only at hactive hnodup ⊢
  subst hactive
  have hs1 : sessionQueueReducer now
      ⟨deckId, some a, queue, completed, phase, lastAction, total⟩ (.setActive none) =
      ⟨deckId, none, cloneCard a :: queue, completed, .prompt,
        some .setActive, total⟩ := by
    simp only [sessionQueueReducer]
    rw [if_pos (by simp : (cloneCard a :: queue).length > 0)]
  rw [hs1]
  simp only [sessionQueueReducer, Option.map_none]
  rw [if_neg (by simp)]
  simp only [cloneCard_eq]
  have hscan : scanQueueForCard a.id (a :: queue) = (queue, some a) := by
    have hrest := scanQueueForCard_not_mem a.id queue hnodup
    simp [scanQueueForCard, hrest, cloneCard_eq]
  simp only [hscan]
  simp

/-- A concrete session used as the C9 witness input: active card A, queue
holding only card B. -/
def c9SampleState : SessionQueueState :=
  { deckId := some "deck"
    active := some cardA
    queue := [cardB]
    completed := []
    phase := .review
    lastAction := some .check
    total := 2 }

/-- C9 witness: the round trip evaluated on the concrete sample state. -/
theorem c9_setActive_roundtrip_witness :
    (sessionQueueReducer "t" (sessionQueueReducer "t" c9SampleState (.setActive none))
        (.setActive (some cardA.id))).active = some cardA ∧
    (sessionQueueReducer "t" (sessionQueueReducer "t" c9SampleState (.setActive none))
        (.setActive (some cardA.id))).queue = c9SampleState.queue :=
  c9_setActive_roundtrip "t" c9SampleState cardA (by decide) (by decide)

/-! ## syncCard idempotence and no-op behaviour (C10) -/

/-- Cloning keeps the id. -/
theorem cloneCard_id (c : CardSummary) : (cloneCard c).id = c.id := rfl

/-- The per-card merge step of the queue sync keeps every card's id. -/
theorem syncListFun_id (t c : CardSummary) :
    (if c.id = t.id then mergeCards c t else c).id = c.id := by
  split
  · rename_i h
    rw [mergeCards_id]
    exact h.symm
  · rfl

/-- The per-entry merge step of the completed sync keeps every card's id. -/
theorem syncCompletedFun_id (t : CardSummary) (e : SessionCompletedEntry) :
    (if e.card.id = t.id then { e with card := mergeCards e.card t } else e).card.id =
      e.card.id := by
  split
  · rename_i h
    dsimp only
    rw [mergeCards_id]
    exact h.symm
  · rfl

/-- Syncing the active slot does not change which id (if any) is active. -/
theorem syncActiveCard_map_id (t : CardSummary) (x : Option CardSummary) :
    (syncActiveCard t x).map (fun a => a.id) = x.map (fun a => a.id) := by
  unfold syncActiveCard
  split
  · rename_i h
    cases x with
    | none => rfl
    | some a =>
      have ha : a.id = t.id := by simpa using h
      simp [mergeCards_id, ha]
  · rfl

/-- Syncing the active slot twice is the same as syncing it once. -/
theorem syncActiveCard_idem (t : CardSummary) (x : Option CardSummary) :
    syncActiveCard t (syncActiveCard t x) = syncActiveCard t x := by
  cases x with
  | none => simp [syncActiveCard]
  | some a =>
    by_cases h : a.id = t.id
    · simp [syncActiveCard, h, mergeCards_id, mergeCards_idem]
    · simp [syncActiveCard, h]

/-- Syncing the queue twice is the same as syncing it once. -/
theorem syncCardInList_idem (t : CardSummary) (l : List CardSummary) :
    syncCardInList t (syncCardInList t l) = syncCardInList t l := by
  unfold syncCardInList
  rw [List.map_map]
  apply List.map_congr_left
  intro c _
  by_cases h : c.id = t.id
  · simp [Function.comp, h, mergeCards_id, mergeCards_idem]
  · simp [Function.comp, h]

/-- Syncing the completed log twice is the same as syncing it once. -/
theorem syncCompletedList_idem (t : CardSummary) (l : List SessionCompletedEntry) :
    syncCompletedList t (syncCompletedList t l) = syncCompletedList t l := by
  unfold syncCompletedList
  rw [List.map_map]
  apply List.map_congr_left
  intro e _
  by_cases h : e.card.id = t.id
  · simp [Function.comp, h, mergeCards_id, mergeCards_idem]
  · simp [Function.comp, h]

/-- Matching status in the queue is unchanged by a sync pass. -/
theorem syncCardInList_exists (t : CardSummary) (l : List CardSummary) :
    (∃ c ∈ syncCardInList t l, c.id = t.id) ↔ ∃ c ∈ l, c.id = t.id := by
  unfold syncCardInList
  constructor
  · rintro ⟨c, hc, hid⟩
    obtain ⟨x, hx, rfl⟩ := List.mem_map.mp hc
    exact ⟨x, hx, by rwa [syncListFun_id] at hid⟩
  · rintro ⟨x, hx, hid⟩
    exact ⟨_, List.mem_map_of_mem _ hx, by rwa [syncListFun_id]⟩

/-- Matching status in the completed log is unchanged by a sync pass. -/
theorem syncCompletedList_exists (t : CardSummary) (l : List SessionCompletedEntry) :
    (∃ e ∈ syncCompletedList t l, e.card.id = t.id) ↔ ∃ e ∈ l, e.card.id = t.id := by
  unfold syncCompletedList
  constructor
  · rintro ⟨e, he, hid⟩
    obtain ⟨x, hx, rfl⟩ := List.mem_map.mp he
    exact ⟨x, hx, by rwa [syncCompletedFun_id] at hid⟩
  · rintro ⟨x, hx, hid⟩
    exact ⟨_, List.mem_map_of_mem _ hx, by rwa [syncCompletedFun_id]⟩

/-- The changed-flag condition still holds after one sync pass. -/
theorem syncMatches_after (t : CardSummary) (s : SessionQueueState) :
    syncMatches t
      { s with
        active := syncActiveCard t s.active
        queue := syncCardInList t s.queue
        completed := syncCompletedList t s.completed
        lastAction := some .syncCard } ↔ syncMatches t s := by
  unfold syncMatches
  dsimp only
  rw [syncActiveCard_map_id]
  constructor
  · rintro (h | h | h)
    · exact Or.inl h
    · exact Or.inr (Or.inl ((syncCardInList_exists t s.queue).mp h))
    · exact Or.inr (Or.inr ((syncCompletedList_exists t s.completed).mp h))
  · rintro (h | h | h)
    · exact Or.inl h
    · exact Or.inr (Or.inl ((syncCardInList_exists t s.queue).mpr h))
    · exact Or.inr (Or.inr ((syncCompletedList_exists t s.completed).mpr h))

/-- The whole `syncCard` case is idempotent. -/
theorem applySyncCard_idem (card : CardSummary) (s : SessionQueueState) :
    applySyncCard card (applySyncCard card s) = applySyncCard card s := by
  unfold applySyncCard
  by_cases hm : syncMatches (cloneCard card) s
  · rw [if_pos hm, if_pos ((syncMatches_after (cloneCard card) s).mpr hm)]
    dsimp only
    rw [syncActiveCard_idem, syncCardInList_idem, syncCompletedList_idem]
  · rw [if_neg hm, if_neg hm]

/-- C10: `syncCard` is idempotent — applying the same card payload twice
(at any clock values) equals applying it once; it never changes the phase;
and when the payload's id occurs neither as the active card, nor in the
queue, nor in any completed entry, the event returns the input state
unchanged. -/
theorem c10_syncCard_properties (now now' : String) (s : SessionQueueState)
    (card : CardSummary) :
    sessionQueueReducer now' (sessionQueueReducer now s (.syncCard card))
        (.syncCard card) = sessionQueueReducer now s (.syncCard card) ∧
    (sessionQueueReducer now s (.syncCard card)).phase = s.phase ∧
    (s.active.map (fun a => a.id) ≠ some card.id →
      (∀ c ∈ s.queue, c.id ≠ card.id) →
      (∀ e ∈ s.completed, e.card.id ≠ card.id) →
      sessionQueueReducer now s (.syncCard card) = s) := by
  refine ⟨applySyncCard_idem card s, syncCard_phase now s card, fun hA hQ hC => ?_⟩
  have hm : ¬ syncMatches (cloneCard card) s := by
    unfold syncMatches
    push_neg
    refine ⟨?_, fun c hc => ?_, fun e he => ?_⟩
    · simpa [cloneCard_id] using hA
    · simpa [cloneCard_id] using hQ c hc
    · simpa [cloneCard_id] using hC e he
  show applySyncCard card s = s
  unfold applySyncCard
  rw [if_neg hm]

/-- A concrete session used as the C10 witness input: card C occurs nowhere
in it. -/
def c10SampleState : SessionQueueState :=
  { deckId := some "deck"
    active := some cardA
    queue := [cardB]
    completed := []
    phase := .prompt
    lastAction := none
    total := 2 }

/-- C10 witness: idempotence, phase preservation and the no-op case
evaluated on a concrete state and the unmatched card C. -/
theorem c10_syncCard_properties_witness :
    sessionQueueReducer "u" (sessionQueueReducer "t" c10SampleState (.syncCard cardC))
        (.syncCard cardC) = sessionQueueReducer "t" c10SampleState (.syncCard cardC) ∧
    (sessionQueueReducer "t" c10SampleState (.syncCard cardC)).phase =
      c10SampleState.phase ∧
    sessionQueueReducer "t" c10SampleState (.syncCard cardC) = c10SampleState := by
  obtain ⟨h1, h2, h3⟩ := c10_syncCard_properties "t" "u" c10SampleState cardC
  exact ⟨h1, h2, h3 (by decide) (by decide) (by decide)⟩

/-! ## Lemmas about the attempts cache map -/

/-- Updating the cache at a key then reading that key yields the new value. -/
theorem lookupAttempts_set_eq (m : AttemptsMap) (k : String)
    (v : List AttemptRecord) :
    lookupAttempts (setAttempts m k v) k = some v := by
  induction m with
  | nil => simp [setAttempts, lookupAttempts]
  | cons p rest ih =>
    by_cases hp : p.1 = k
    · simp [setAttempts, lookupAttempts, hp]
    · simp [setAttempts, lookupAttempts, hp, ih]

/-- Updating the cache at one key leaves every other key's entry unchanged. -/
theorem lookupAttempts_set_ne (m : AttemptsMap) (k kOther : String)
    (v : List AttemptRecord) (h : kOther ≠ k) :
    lookupAttempts (setAttempts m k v) kOther = lookupAttempts m kOther := by
  have h1 : ¬ (k = kOther) := fun hh => h hh.symm
  induction m with
  | nil => simp [setAttempts, lookupAttempts, h1]
  | cons p rest ih =>
    by_cases hp : p.1 = k
    · have h2 : ¬ (p.1 = kOther) := by
        rw [hp]
        exact h1
      simp [setAttempts, lookupAttempts, hp, h1, h2]
    · by_cases hq : p.1 = kOther
      · simp [setAttempts, lookupAttempts, hp, hq, h]
      · simp [setAttempts, lookupAttempts, hp, hq, ih]

/-- The structural prefix test agrees with `List.IsPrefix`. -/
theorem isPrefixOfChars_iff (pat hay : List Char) :
    isPrefixOfChars pat hay = true ↔ pat <+: hay := by
  induction pat generalizing hay with
  | nil => simp [isPrefixOfChars]
  | cons c cs ih =>
    cases hay with
    | nil => simp [isPrefixOfChars]
    | cons d ds => simp [isPrefixOfChars, ih, List.cons_prefix_cons]

/-- The includes test agrees with `List.IsInfix`. -/
theorem containsChars_iff (pat hay : List Char) :
    containsChars pat hay = true ↔ pat <:+: hay := by
  induction hay with
  | nil => simp [containsChars, isPrefixOfChars_iff]
  | cons c rest ih =>
    simp only [containsChars, Bool.or_eq_true, isPrefixOfChars_iff, ih]
    exact (List.infix_cons_iff).symm

/-! ## submitAnswer failure handling (C6) -/

/-- C6: when the scoring collaborator fails, `submitAnswer` returns no
attempt, leaves the session, the attempt cache, the last attempt and the
active card id exactly as they were, sets status `error`, and sets the
error message to the friendly service-unreachable text exactly when the raw
message case-insensitively contains one of timeout / connection / network /
fetch / unreachable, else to the raw message itself. -/
theorem c6_submitAnswer_failure (s : StudyState) (rawMessage : String) :
    (submitAnswerFailure rawMessage s).2 = none ∧
    (submitAnswerFailure rawMessage s).1.session = s.session ∧
    (submitAnswerFailure rawMessage s).1.attemptsByCard = s.attemptsByCard ∧
    (submitAnswerFailure rawMessage s).1.lastAttempt = s.lastAttempt ∧
    (submitAnswerFailure rawMessage s).1.activeCardId = s.activeCardId ∧
    (submitAnswerFailure rawMessage s).1.sessionStartedAt = s.sessionStartedAt ∧
    (submitAnswerFailure rawMessage s).1.status = .error ∧
    (submitAnswerFailure rawMessage s).1.error =
      some (if isConnectionError rawMessage then connectionErrorMessage
        else rawMessage) ∧
    (isConnectionError rawMessage = true ↔
      ("timeout".toList <:+: lowerChars rawMessage ∨
        "connection".toList <:+: lowerChars rawMessage ∨
        "network".toList <:+: lowerChars rawMessage ∨
        "fetch".toList <:+: lowerChars rawMessage ∨
        "unreachable".toList <:+: lowerChars rawMessage)) := by
  refine ⟨rfl, rfl, rfl, rfl, rfl, rfl, rfl, rfl, ?_⟩
  simp [isConnectionError, containsChars_iff, or_assoc]

/-! ## fetchAttempts failure handling (C7) -/

/-- When the guard reports a miss, `fetchAttempts` reaches the collaborator
call. -/
theorem fetchAttempts_miss (cardId : String) (limit : Nat) (force : Bool)
    (outcome : FetchOutcome) (s : StudyState)
    (h : fetchCacheHit s cardId force = false) :
    fetchAttempts cardId limit force outcome s =
      fetchAttemptsCall cardId limit outcome s := by
  unfold fetchCacheHit at h
  unfold fetchAttempts
  cases hl : lookupAttempts s.attemptsByCard cardId with
  | none => rfl
  | some existing =>
    rw [hl] at h
    have h' : (decide (existing.length > 0) && !force) = false := h
    simp [h']

/-- C7: when the history collaborator fails on a real call (cache miss or
forced), a message matching not found / 404 / does not exist
(case-insensitively) caches an empty list for the card and leaves the
error field untouched (so an unset error stays unset) while resolving with
[]; any other failure sets the error field to the message, resolves with
[], and leaves the whole cache — in particular that card's entry —
untouched, so a later retry is not short-circuited. -/
theorem c7_fetchAttempts_failure (s : StudyState) (cardId : String)
    (limit : Nat) (force : Bool) (message : String)
    (hmiss : fetchCacheHit s cardId force = false) :
    (isNotFoundError message = true →
      lookupAttempts
          (fetchAttempts cardId limit force (.failure message) s).1.attemptsByCard
          cardId = some [] ∧
        (fetchAttempts cardId limit force (.failure message) s).1.error = s.error ∧
        (fetchAttempts cardId limit force (.failure message) s).2.1 = []) ∧
    (isNotFoundError message = false →
      (fetchAttempts cardId limit force (.failure message) s).1.error =
          some message ∧
        (fetchAttempts cardId limit force (.failure message) s).1.attemptsByCard =
          s.attemptsByCard ∧
        (fetchAttempts cardId limit force (.failure message) s).2.1 = []) ∧
    (isNotFoundError message = true ↔
      ("not found".toList <:+: lowerChars message ∨
        "404".toList <:+: lowerChars message ∨
        "does not exist".toList <:+: lowerChars message)) := by
  rw [fetchAttempts_miss cardId limit force (.failure message) s hmiss]
  refine ⟨fun hnf => ?_, fun hnf => ?_, ?_⟩
  · unfold fetchAttemptsCall
    dsimp only
    rw [if_pos hnf]
    exact ⟨lookupAttempts_set_eq _ _ _, rfl, rfl⟩
  · unfold fetchAttemptsCall
    dsimp only
    rw [if_neg (by simp [hnf])]
    exact ⟨rfl, rfl, rfl⟩
  · simp [isNotFoundError, containsChars_iff, or_assoc]

/-- A concrete attempt record, scored correct for card "c". -/
def sampleAttempt : AttemptRecord :=
  { id := "att-1"
    cardId := "c"
    userAnswer := "an answer"
    verdict := .correct
    score := 1
    cosine := 1
    coverage := 1
    missingKeypoints := []
    feedback := none
    prompt := none
    expectedAnswer := none
    keypoints := []
    createdAt := "2024-01-01T00:00:00.000Z"
    schedule := none }

/-- C7 witness: from the pristine store (error unset, cache empty), a
"not found" failure caches `[]` and keeps the error unset; a generic 500
failure sets the error and leaves the cache untouched. -/
theorem c7_fetchAttempts_failure_witness :
    (lookupAttempts
        (fetchAttempts "c" 20 false (.failure "Attempt history not found")
            initialStudyState).1.attemptsByCard "c" = some [] ∧
      (fetchAttempts "c" 20 false (.failure "Attempt history not found")
          initialStudyState).1.error = initialStudyState.error ∧
      (fetchAttempts "c" 20 false (.failure "Attempt history not found")
          initialStudyState).2.1 = []) ∧
    ((fetchAttempts "c" 20 false (.failure "HTTP 500: internal error")
          initialStudyState).1.error = some "HTTP 500: internal error" ∧
      (fetchAttempts "c" 20 false (.failure "HTTP 500: internal error")
          initialStudyState).1.attemptsByCard = initialStudyState.attemptsByCard ∧
      (fetchAttempts "c" 20 false (.failure "HTTP 500: internal error")
          initialStudyState).2.1 = []) :=
  ⟨(c7_fetchAttempts_failure initialStudyState "c" 20 false
      "Attempt history not found" (by decide)).1 (by decide),
    (c7_fetchAttempts_failure initialStudyState "c" 20 false
      "HTTP 500: internal error" (by decide)).2.1 (by decide)⟩

/-! ## fetchAttempts cache-hit behaviour (C5) -/

/-- C5, amended: a cache hit short-circuits only when the cached list is
non-empty: for every state whose cached list for the card is non-empty, a
non-forced `fetchAttempts` resolves with the cached list, does not call the
collaborator, and leaves the store state unchanged — whatever the
collaborator outcome would have been. -/
theorem c5_fetchAttempts_cache_hit (s : StudyState) (cardId : String)
    (limit : Nat) (outcome : FetchOutcome) (existing : List AttemptRecord)
    (hcache : lookupAttempts s.attemptsByCard cardId = some existing)
    (hne : existing ≠ []) :
    fetchAttempts cardId limit false outcome s = (s, existing, false) := by
  have hlen : (decide (existing.length > 0) && !false) = true := by
    simp [List.length_pos.mpr hne]
  unfold fetchAttempts
  rw [hcache]
  dsimp only
  rw [if_pos hlen]

/-- A store state whose cache holds a non-empty list for card "c". -/
def cachedSampleState : StudyState :=
  { initialStudyState with attemptsByCard := [("c", [sampleAttempt])] }

/-- C5 witness: on the concrete cached state a non-forced fetch returns the
cached list and changes nothing, even though the collaborator outcome at
hand would have failed. -/
theorem c5_fetchAttempts_cache_hit_witness :
    fetchAttempts "c" 20 false (.failure "boom") cachedSampleState =
      (cachedSampleState, [sampleAttempt], false) :=
  c5_fetchAttempts_cache_hit cachedSampleState "c" 20 (.failure "boom")
    [sampleAttempt] (by decide) (by decide)

/-- A store state that has recovered from a not-found failure for card "c":
the cache holds an entry for "c" whose list is empty. -/
def cachedEmptyState : StudyState :=
  (fetchAttempts "c" 20 false (.failure "not found") initialStudyState).1

/-- C5, counterexample: the claim also demands a cache hit on a cached
*empty* list, but on the reachable state holding `[]` for card "c" a
non-forced `fetchAttempts` calls the collaborator after all and overwrites
the store state. -/
theorem c5_counterexample :
    StoreReachable cachedEmptyState ∧
    lookupAttempts cachedEmptyState.attemptsByCard "c" = some [] ∧
    (fetchAttempts "c" 20 false (.success [sampleAttempt]) cachedEmptyState).2.2 =
      true ∧
    (fetchAttempts "c" 20 false (.success [sampleAttempt])
        cachedEmptyState).1.attemptsByCard ≠ cachedEmptyState.attemptsByCard :=
  ⟨⟨[.fetchResolve "c" 20 false (.failure "not found")], rfl⟩,
    by decide, by decide, by decide⟩

/-! ## Rehydration staleness (C8) -/

/-- C8: on rehydration, a persisted state whose `sessionStartedAt` lies more
than 24 hours (86,400,000 ms) before `now` is replaced by the empty/reset
shape; one exactly 23 hours old (with a positive epoch timestamp) is
returned unchanged; one with no `sessionStartedAt` at all is likewise
replaced by the reset shape. -/
theorem c8_migrate_staleness (p : PersistedStudyState) (now t : Int) :
    (p.sessionStartedAt = some t → now - t > 86400000 →
      migrate now (some p) = some resetPersistedState) ∧
    (p.sessionStartedAt = some t → 0 < t → now - t = 23 * 60 * 60 * 1000 →
      migrate now (some p) = some p) ∧
    (p.sessionStartedAt = none →
      migrate now (some p) = some resetPersistedState) := by
  refine ⟨fun hss hage => ?_, fun hss hpos hage => ?_, fun hss => ?_⟩
  · unfold migrate migrateStudyState
    dsimp only
    rw [hss]
    dsimp only
    by_cases ht : t = 0
    · rw [if_pos ht, if_pos rfl]
    · rw [if_neg ht]
      have : decide (now - t > MAX_SESSION_AGE_MS) = true := by
        simpa [MAX_SESSION_AGE_MS] using hage
      rw [this, if_pos rfl]
  · unfold migrate migrateStudyState
    dsimp only
    rw [hss]
    dsimp only
    have ht : ¬ (t = 0) := by omega
    rw [if_neg ht]
    have : decide (now - t > MAX_SESSION_AGE_MS) = false := by
      simp [MAX_SESSION_AGE_MS]
      omega
    rw [this, if_neg (by simp)]
  · unfold migrate migrateStudyState
    dsimp only
    rw [hss]
    dsimp only
    rw [if_pos rfl]

/-- A persisted snapshot stamped at epoch millisecond 1000. -/
def persistedAt1000 : PersistedStudyState :=
  { session := c9SampleState
    activeCardId := some "A"
    lastAttempt := none
    attemptsByCard := [("A", [sampleAttempt])]
    sessionStartedAt := some 1000 }

/-- A persisted snapshot with no session start stamp. -/
def persistedNoStamp : PersistedStudyState :=
  { session := c9SampleState
    activeCardId := some "A"
    lastAttempt := none
    attemptsByCard := []
    sessionStartedAt := none }

/-- C8 witness: the snapshot stamped at 1000 is discarded when loaded more
than 24h later, rehydrated unchanged when loaded exactly 23h later, and the
stampless snapshot is always discarded. -/
theorem c8_migrate_staleness_witness :
    migrate (1000 + 86400001) (some persistedAt1000) = some resetPersistedState ∧
    migrate (1000 + 82800000) (some persistedAt1000) = some persistedAt1000 ∧
    migrate 0 (some persistedNoStamp) = some resetPersistedState :=
  ⟨(c8_migrate_staleness persistedAt1000 (1000 + 86400001) 1000).1 rfl (by decide),
    (c8_migrate_staleness persistedAt1000 (1000 + 82800000) 1000).2.1 rfl (by decide)
      (by decide),
    (c8_migrate_staleness persistedNoStamp 0 0).2.2 rfl⟩

/-! ## The lastAttempt/activeCardId invariant (C3) -/

/-- The `check` event never changes the active card. -/
theorem check_active (now : String) (s : SessionQueueState) :
    (sessionQueueReducer now s .check).active = s.active := by
  simp only [sessionQueueReducer]
  split <;> rfl

/-- `deriveSessionState` only keeps a previous attempt that belongs to the
newly active card. -/
theorem deriveSessionState_lastAttempt (prev : Option AttemptRecord)
    (session : SessionQueueState) (a : AttemptRecord)
    (ha : (deriveSessionState prev session).2.2 = some a) :
    (deriveSessionState prev session).2.1 = some a.cardId := by
  unfold deriveSessionState at ha ⊢
  dsimp only at ha ⊢
  cases prev with
  | none => exact (nomatch ha)
  | some p =>
    dsimp only at ha
    by_cases hc : some p.cardId = session.active.map (fun c => c.id)
    · rw [if_pos hc] at ha
      have hpa : p = a := Option.some.inj ha
      rw [← hc, hpa]
    · rw [if_neg hc] at ha
      exact (nomatch ha)

/-- `fetchAttempts` only ever touches the cache and the error field. -/
theorem fetchAttempts_frame (cardId : String) (limit : Nat) (force : Bool)
    (outcome : FetchOutcome) (s : StudyState) :
    (fetchAttempts cardId limit force outcome s).1.lastAttempt = s.lastAttempt ∧
    (fetchAttempts cardId limit force outcome s).1.activeCardId = s.activeCardId ∧
    (fetchAttempts cardId limit force outcome s).1.session = s.session ∧
    (fetchAttempts cardId limit force outcome s).1.sessionStartedAt =
      s.sessionStartedAt ∧
    (fetchAttempts cardId limit force outcome s).1.status = s.status := by
  unfold fetchAttempts fetchAttemptsCall
  cases lookupAttempts s.attemptsByCard cardId with
  | none =>
    cases outcome with
    | success attempts => exact ⟨rfl, rfl, rfl, rfl, rfl⟩
    | failure message =>
      dsimp only
      split
      · exact ⟨rfl, rfl, rfl, rfl, rfl⟩
      · exact ⟨rfl, rfl, rfl, rfl, rfl⟩
  | some existing =>
    dsimp only
    split
    · exact ⟨rfl, rfl, rfl, rfl, rfl⟩
    · cases outcome with
      | success attempts => exact ⟨rfl, rfl, rfl, rfl, rfl⟩
      | failure message =>
        dsimp only
        split
        · exact ⟨rfl, rfl, rfl, rfl, rfl⟩
        · exact ⟨rfl, rfl, rfl, rfl, rfl⟩

/-- The C3 invariant: a present `lastAttempt` belongs to the active card. -/
def LastAttemptInv (s : StudyState) : Prop :=
  ∀ a : AttemptRecord, s.lastAttempt = some a → s.activeCardId = some a.cardId

/-- Store reachability restricted to well-attributed scoring responses: a
`submitAnswer` resolution must carry an attempt for the card that is active
when the response lands (which the code does not itself enforce). -/
inductive GoodReachable : StudyState → Prop
  | init : GoodReachable initialStudyState
  | step (op : StoreOp) {s : StudyState} :
      GoodReachable s →
      (∀ pid attempt, op = .submitResolve pid attempt →
        s.session.active.map (fun c => c.id) = some attempt.cardId) →
      GoodReachable (applyOp op s)

/-- Every store step preserves the C3 invariant, provided a scoring
resolution is for the currently active card. -/
theorem lastAttemptInv_step (s : StudyState) (op : StoreOp)
    (h : LastAttemptInv s)
    (hres : ∀ pid attempt, op = .submitResolve pid attempt →
      s.session.active.map (fun c => c.id) = some attempt.cardId) :
    LastAttemptInv (applyOp op s) := by
  cases op with
  | startSession now deckId cards =>
    exact fun a ha => deriveSessionState_lastAttempt none
      (sessionQueueReducer "" initialSessionState (.bootstrap deckId cards)) a ha
  | dispatchSession now action =>
    exact fun a ha => deriveSessionState_lastAttempt s.lastAttempt
      (sessionQueueReducer now s.session action) a ha
  | selectCard cardId =>
    cases cardId with
    | none =>
      exact fun a ha => deriveSessionState_lastAttempt none
        (sessionQueueReducer "" s.session (.setActive none)) a ha
    | some cid =>
      exact fun a ha => deriveSessionState_lastAttempt s.lastAttempt
        (sessionQueueReducer "" s.session (.setActive (some cid))) a ha
  | submitStart => exact fun a ha => h a ha
  | submitResolve pid attempt =>
    intro a ha
    have hA : attempt = a := Option.some.inj ha
    subst hA
    have hc := hres pid attempt rfl
    show (sessionQueueReducer "" s.session .check).active.map (fun c => c.id) =
      some attempt.cardId
    rw [check_active]
    exact hc
  | submitReject rawMessage => exact fun a ha => h a ha
  | fetchResolve cardId limit force outcome =>
    intro a ha
    have hf := fetchAttempts_frame cardId limit force outcome s
    have ha' : (fetchAttempts cardId limit force outcome s).1.lastAttempt =
      some a := ha
    rw [hf.1] at ha'
    show (fetchAttempts cardId limit force outcome s).1.activeCardId =
      some a.cardId
    rw [hf.2.1]
    exact h a ha'
  | resetSession => exact fun a ha => (nomatch ha)
  | clearError => exact fun a ha => h a ha

/-- C3, amended: in every store state reachable with well-attributed scoring
responses (each `submitAnswer` resolution carrying an attempt for the card
active at completion time), a non-null `lastAttempt` always has `cardId`
equal to `activeCardId`. Without that restriction the code does not enforce
the invariant: a resolution for another card sets `lastAttempt` to an
attempt that does not belong to the active card. -/
theorem c3_lastAttempt_belongs_to_active (s : StudyState) (h : GoodReachable s) :
    ∀ a : AttemptRecord, s.lastAttempt = some a →
      s.activeCardId = some a.cardId := by
  induction h with
  | init => exact fun a ha => (nomatch ha)
  | step op hs hok ih => exact lastAttemptInv_step _ op ih hok

/-- The state reached by letting a scoring response for card "c" land on the
pristine store, whose session has no active card. -/
def misattributedState : StudyState :=
  applyOp (.submitResolve "c" sampleAttempt) initialStudyState

/-- C3, counterexample: the invariant as claimed fails on a reachable state
— a `submitAnswer` resolution for card "c" landing while no card is active
leaves `lastAttempt` set to the "c" attempt while `activeCardId` is null. -/
theorem c3_counterexample :
    StoreReachable misattributedState ∧
    misattributedState.lastAttempt = some sampleAttempt ∧
    misattributedState.activeCardId ≠ some sampleAttempt.cardId :=
  ⟨⟨[.submitResolve "c" sampleAttempt], rfl⟩, rfl, by decide⟩

/-- An attempt scored for card A. -/
def attemptForA : AttemptRecord :=
  { sampleAttempt with id := "att-A", cardId := "A" }

/-- A well-attributed trace: start a session on card A, then let a scoring
response for card A land. -/
def wellAttributedState : StudyState :=
  applyOp (.submitResolve "A" attemptForA)
    (applyOp (.startSession 0 "deck" [cardA]) initialStudyState)

/-- C3 witness: the amended invariant evaluated on the concrete
well-attributed trace. -/
theorem c3_lastAttempt_belongs_to_active_witness :
    wellAttributedState.activeCardId = some attemptForA.cardId :=
  c3_lastAttempt_belongs_to_active wellAttributedState
    (GoodReachable.step (.submitResolve "A" attemptForA)
      (GoodReachable.step (.startSession 0 "deck" [cardA]) GoodReachable.init
        (fun _ _ hh => nomatch hh))
      (fun pid attempt hh => by
        injection hh with h1 h2
        subst h2
        decide))
    attemptForA rfl

/-! ## The attempt-cache shape invariant (C4) -/

/-- Newest-first: `createdAt` timestamps never increase down the list
(ISO-8601 strings compare chronologically). -/
def NewestFirst (l : List AttemptRecord) : Prop :=
  l.Chain' (fun a b => b.createdAt ≤ a.createdAt)

/-- The C4 cache-shape invariant: every cached list is newest-first and
holds at most `MAX_CACHED_ATTEMPTS` entries. -/
def CacheInv (s : StudyState) : Prop :=
  ∀ k l, lookupAttempts s.attemptsByCard k = some l →
    l.length ≤ MAX_CACHED_ATTEMPTS ∧ NewestFirst l

/-- Prepending a newest attempt and truncating keeps a list newest-first. -/
theorem newestFirst_push (attempt : AttemptRecord)
    (existing : List AttemptRecord) (hex : NewestFirst existing)
    (hle : ∀ b ∈ existing, b.createdAt ≤ attempt.createdAt) :
    NewestFirst ((attempt :: existing).take MAX_CACHED_ATTEMPTS) := by
  have hchain : NewestFirst (attempt :: existing) := by
    rw [NewestFirst, List.chain'_cons']
    exact ⟨fun b hb => hle b (List.mem_of_mem_head? hb), hex⟩
  exact List.Chain'.prefix hchain (List.take_prefix _ _)

/-- The collaborator-call part of `fetchAttempts` preserves the cache shape
whenever a successful response is itself within shape. -/
theorem cacheInv_fetchCall (s : StudyState) (cardId : String) (limit : Nat)
    (outcome : FetchOutcome) (h : CacheInv s)
    (hok : ∀ l, outcome = .success l →
      l.length ≤ MAX_CACHED_ATTEMPTS ∧ NewestFirst l) :
    CacheInv (fetchAttemptsCall cardId limit outcome s).1 := by
  cases outcome with
  | success attempts =>
    intro k l hl
    have hl' : lookupAttempts (setAttempts s.attemptsByCard cardId attempts) k =
      some l := hl
    by_cases hk : k = cardId
    · subst hk
      rw [lookupAttempts_set_eq] at hl'
      obtain rfl : attempts = l := Option.some.inj hl'
      exact hok _ rfl
    · rw [lookupAttempts_set_ne _ _ _ _ hk] at hl'
      exact h k l hl'
  | failure message =>
    dsimp only [fetchAttemptsCall]
    split
    · intro k l hl
      have hl' : lookupAttempts (setAttempts s.attemptsByCard cardId []) k =
        some l := hl
      by_cases hk : k = cardId
      · subst hk
        rw [lookupAttempts_set_eq] at hl'
        obtain rfl : ([] : List AttemptRecord) = l := Option.some.inj hl'
        exact ⟨by simp [MAX_CACHED_ATTEMPTS], List.chain'_nil⟩
      · rw [lookupAttempts_set_ne _ _ _ _ hk] at hl'
        exact h k l hl'
    · exact fun k l hl => h k l hl

/-- `fetchAttempts` preserves the cache shape whenever a successful response
is itself within shape. -/
theorem cacheInv_fetch (s : StudyState) (cardId : String) (limit : Nat)
    (force : Bool) (outcome : FetchOutcome) (h : CacheInv s)
    (hok : ∀ l, outcome = .success l →
      l.length ≤ MAX_CACHED_ATTEMPTS ∧ NewestFirst l) :
    CacheInv (fetchAttempts cardId limit force outcome s).1 := by
  unfold fetchAttempts
  cases lookupAttempts s.attemptsByCard cardId with
  | none => exact cacheInv_fetchCall s cardId limit outcome h hok
  | some existing =>
    dsimp only
    split
    · exact fun k l hl => h k l hl
    · exact cacheInv_fetchCall s cardId limit outcome h hok

/-- Store reachability restricted to well-behaved collaborator responses:
fetched histories are at most 50 long and newest-first (they honour the
requested limit of at most 50 and the history contract of §6), and each
scored attempt is at least as new as what is already cached for its card. -/
inductive CacheGoodReachable : StudyState → Prop
  | init : CacheGoodReachable initialStudyState
  | step (op : StoreOp) {s : StudyState} :
      CacheGoodReachable s →
      (∀ cardId limit force l,
        op = .fetchResolve cardId limit force (.success l) →
        l.length ≤ MAX_CACHED_ATTEMPTS ∧ NewestFirst l) →
      (∀ pid attempt, op = .submitResolve pid attempt →
        ∀ l, lookupAttempts s.attemptsByCard pid = some l →
          ∀ b ∈ l, b.createdAt ≤ attempt.createdAt) →
      CacheGoodReachable (applyOp op s)

/-- Every store step preserves the cache-shape invariant, under the
well-behaved-response conditions. -/
theorem cacheInv_step (s : StudyState) (op : StoreOp) (h : CacheInv s)
    (hfetch : ∀ cardId limit force l,
      op = .fetchResolve cardId limit force (.success l) →
      l.length ≤ MAX_CACHED_ATTEMPTS ∧ NewestFirst l)
    (hsubmit : ∀ pid attempt, op = .submitResolve pid attempt →
      ∀ l, lookupAttempts s.attemptsByCard pid = some l →
        ∀ b ∈ l, b.createdAt ≤ attempt.createdAt) :
    CacheInv (applyOp op s) := by
  cases op with
  | startSession now deckId cards => exact fun k l hl => h k l hl
  | dispatchSession now action => exact fun k l hl => h k l hl
  | selectCard cardId =>
    cases cardId with
    | none => exact fun k l hl => h k l hl
    | some cid => exact fun k l hl => h k l hl
  | submitStart => exact fun k l hl => h k l hl
  | submitReject rawMessage => exact fun k l hl => h k l hl
  | resetSession => exact fun k l hl => h k l hl
  | clearError => exact fun k l hl => h k l hl
  | fetchResolve cardId limit force outcome =>
    exact cacheInv_fetch s cardId limit force outcome h
      (fun l hl => hfetch cardId limit force l (by rw [hl]))
  | submitResolve pid attempt =>
    intro k l hl
    have hl' : lookupAttempts
        (setAttempts s.attemptsByCard pid
          ((attempt :: (lookupAttempts s.attemptsByCard pid).getD []).take
            MAX_CACHED_ATTEMPTS)) k = some l := hl
    by_cases hk : k = pid
    · subst hk
      rw [lookupAttempts_set_eq] at hl'
      obtain rfl :
          (attempt :: (lookupAttempts s.attemptsByCard k).getD []).take
            MAX_CACHED_ATTEMPTS = l := Option.some.inj hl'
      refine ⟨List.length_take_le _ _, ?_⟩
      cases hex : lookupAttempts s.attemptsByCard k with
      | none =>
        exact newestFirst_push attempt [] List.chain'_nil (fun b hb => nomatch hb)
      | some cached =>
        exact newestFirst_push attempt cached (h k cached hex).2
          (hsubmit k attempt rfl cached hex)
    · rw [lookupAttempts_set_ne _ _ _ _ hk] at hl'
      exact h k l hl'

/-- C4, amended: in every store state reachable with well-behaved
collaborator responses, every cached list is newest-first with at most 50
entries. `submitAnswer` enforces the cap itself (prepend then truncate to
50); `fetchAttempts` stores the fetched history as-is, so for it the cap
holds only because well-behaved histories carry at most 50 entries (every
call site in the repository requests 20). -/
theorem c4_cache_newest_first_capped (s : StudyState)
    (h : CacheGoodReachable s) :
    ∀ k l, lookupAttempts s.attemptsByCard k = some l →
      l.length ≤ MAX_CACHED_ATTEMPTS ∧ NewestFirst l := by
  induction h with
  | init => exact fun k l hl => (nomatch hl)
  | step op hs hfetch hsubmit ih => exact cacheInv_step _ op ih hfetch hsubmit

/-- C4 witness: the amended invariant evaluated on the store after one
well-attributed scoring response on the pristine store. -/
theorem c4_cache_newest_first_capped_witness :
    [sampleAttempt].length ≤ MAX_CACHED_ATTEMPTS ∧ NewestFirst [sampleAttempt] :=
  c4_cache_newest_first_capped
    (applyOp (.submitResolve "c" sampleAttempt) initialStudyState)
    (CacheGoodReachable.step (.submitResolve "c" sampleAttempt)
      CacheGoodReachable.init
      (fun _ _ _ _ hh => nomatch hh)
      (fun _ _ _ _ hl => nomatch hl))
    "c" [sampleAttempt] rfl

/-- A 51-element history returned by the collaborator for card "c". -/
def oversizedHistory : List AttemptRecord := List.replicate 51 sampleAttempt

/-- The store state after a 51-element fetched history lands on the pristine
store. -/
def oversizedCacheState : StudyState :=
  applyOp (.fetchResolve "c" 60 false (.success oversizedHistory))
    initialStudyState

/-- C4, counterexample: `fetchAttempts` does not cap what it stores — a
fetched history of 51 records (limit 60) is cached whole, so the reachable
state violates the claimed 50-entry cap. -/
theorem c4_counterexample :
    StoreReachable oversizedCacheState ∧
    lookupAttempts oversizedCacheState.attemptsByCard "c" =
      some oversizedHistory ∧
    MAX_CACHED_ATTEMPTS < oversizedHistory.length :=
  ⟨⟨[.fetchResolve "c" 60 false (.success oversizedHistory)], rfl⟩,
    by decide, by decide⟩

end Retention
